import Mathlib

/-!
Shallow embedding of `src/mcp-web3/src/index.ts` (the `Web3AnalystMCP`
worker class).  Every upstream HTTP call is modelled by an explicit
`FetchOutcome` argument describing the simulated upstream behaviour;
`Math.random()` values and clock readings are passed in as explicit
parameters.  JavaScript numbers are modelled as exact rationals (`ℚ`).
-/

namespace MCPWeb3

/-- Model of JS `String.prototype.toUpperCase` (basic-latin letters),
applied character by character. -/
def jsToUpper (s : String) : String := String.mk (s.data.map Char.toUpper)

/-- Model of JS `String.prototype.toLowerCase` (basic-latin letters),
applied character by character. -/
def jsToLower (s : String) : String := String.mk (s.data.map Char.toLower)

/-- Model of JS `String.prototype.substring(0, n)`: the first `n`
characters, clamped to the string length. -/
def jsSubstringTo (s : String) (n : Nat) : String := String.mk (s.data.take n)

theorem length_jsSubstringTo_le (s : String) (n : Nat) :
    (jsSubstringTo s n).length ≤ n := by
  show (s.data.take n).length ≤ n
  simp

/-- Simulated outcome of one upstream HTTP call: the fetch resolves and the
body parses to `α`; or the response has a non-success status (the code reads
the body text and throws); or the fetch / parse itself throws. -/
inductive FetchOutcome (α : Type) where
  | ok (data : α)
  | httpError (status : Nat) (body : String)
  | throwEx (msg : String)

/-- Model of the JS `x || d` defaulting idiom on an optional string
(`data.categories[0] || "Cryptocurrency"`): both a missing element and an
empty string are falsy. -/
def jsOrDefault (o : Option String) (d : String) : String :=
  match o with
  | none => d
  | some s => if s = "" then d else s

/-- Embeds `interface ProjectInfo` from index.ts. -/
structure ProjectInfo where
  name : String
  symbol : String
  descr : String
  category : String
  websiteUrl : String
  twitterHandle : String
  githubRepo : String
  lastUpdated : String
  deriving Repr, DecidableEq

/-- The `description.en` field of a CoinGecko `/coins/{id}` response. -/
structure CoinDescription where
  en : String
  deriving Repr, DecidableEq

/-- The `links` object of a CoinGecko `/coins/{id}` response, with just the
fields index.ts reads. -/
structure CoinLinks where
  homepage : List String
  twitter_screen_name : String
  repos_url_github : List String
  deriving Repr, DecidableEq

/-- The parsed body of a successful CoinGecko `/coins/{id}` response, with
just the fields index.ts reads. -/
structure CoinData where
  name : String
  symbol : String
  coinDescr : CoinDescription
  categories : List String
  links : CoinLinks
  deriving Repr, DecidableEq

/-- The `try` block of `getProjectInfo`: on a non-ok response it throws a
`CoinGecko API error`, on a parsed body it builds the `ProjectInfo` record
field by field.  (JS yields `undefined` for `homepage[0]` on an empty array;
the embedding uses `""` there, which no claim depends on.) -/
def tryGetProjectInfo (now : String) (outcome : FetchOutcome CoinData) :
    Except String ProjectInfo :=
  match outcome with
  | .ok data => .ok
      { name := data.name
        symbol := jsToUpper data.symbol
        descr := jsSubstringTo data.coinDescr.en 300 ++ "..."
        category := jsOrDefault data.categories.head? "Cryptocurrency"
        websiteUrl := data.links.homepage.headD ""
        twitterHandle := data.links.twitter_screen_name
        githubRepo := data.links.repos_url_github.headD ""
        lastUpdated := now }
  | .httpError status body =>
      .error ("CoinGecko API error: " ++ toString status ++ " " ++ body)
  | .throwEx msg => .error msg

/-- The `catch` block of `getProjectInfo`: the mock fallback record. -/
def fallbackProjectInfo (projectIdentifier : String) (now : String) :
    ProjectInfo :=
  { name := projectIdentifier
    symbol := jsToUpper (jsSubstringTo projectIdentifier 3)
    descr := "This is a placeholder description for the requested project. In a real implementation, this would contain actual project data."
    category := "Blockchain"
    websiteUrl := "https://" ++ jsToLower projectIdentifier ++ ".io"
    twitterHandle := "@" ++ jsToLower projectIdentifier
    githubRepo := "https://github.com/" ++ jsToLower projectIdentifier ++ "/" ++ jsToLower projectIdentifier
    lastUpdated := now }

/-- Embeds `getProjectInfo(projectIdentifier)`: try the upstream call, fall back to
the mock record on any failure. -/
def getProjectInfo (projectIdentifier : String) (now : String)
    (outcome : FetchOutcome CoinData) : ProjectInfo :=
  match tryGetProjectInfo now outcome with
  | .ok r => r
  | .error _ => fallbackProjectInfo projectIdentifier now

/-- Embeds `interface PriceData` from index.ts. -/
structure PriceData where
  symbol : String
  price : ℚ
  change24h : ℚ
  marketCap : ℚ
  volume24h : ℚ
  lastUpdated : String
  deriving Repr, DecidableEq

/-- One element of a CoinGecko `/coins/markets` response array, with just
the fields index.ts reads. -/
structure MarketRecord where
  current_price : ℚ
  price_change_percentage_24h : ℚ
  market_cap : ℚ
  total_volume : ℚ
  deriving Repr, DecidableEq

/-- The `try` block of `getPriceData`: `const [data] = await response.json()`
destructures the first array element; on an empty array the subsequent
property access throws, which the embedding renders as an error. -/
def tryGetPriceData (symbol : String) (now : String)
    (outcome : FetchOutcome (List MarketRecord)) : Except String PriceData :=
  match outcome with
  | .ok [] => .error "TypeError: cannot read properties of undefined"
  | .ok (data :: _) => .ok
      { symbol := jsToUpper symbol
        price := data.current_price
        change24h := data.price_change_percentage_24h
        marketCap := data.market_cap
        volume24h := data.total_volume
        lastUpdated := now }
  | .httpError status body =>
      .error ("CoinGecko API error: " ++ toString status ++ " " ++ body)
  | .throwEx msg => .error msg

/-- The `catch` block of `getPriceData`: the mock fallback record.  Each
`rᵢ` models one `Math.random()` draw, a rational in `[0, 1)`. -/
def fallbackPriceData (symbol : String) (now : String) (r₁ r₂ r₃ r₄ : ℚ) :
    PriceData :=
  { symbol := jsToUpper symbol
    price := 1000 + r₁ * 1000
    change24h := r₂ * 10 - 5
    marketCap := 1000000000 + r₃ * 1000000000
    volume24h := 100000000 + r₄ * 100000000
    lastUpdated := now }

/-- Embeds `getPriceData(symbol)`: try the upstream call, fall back to the mock
record on any failure. -/
def getPriceData (symbol : String) (now : String)
    (outcome : FetchOutcome (List MarketRecord)) (r₁ r₂ r₃ r₄ : ℚ) :
    PriceData :=
  match tryGetPriceData symbol now outcome with
  | .ok r => r
  | .error _ => fallbackPriceData symbol now r₁ r₂ r₃ r₄

/-- A character is ASCII-lower-case iff its code point is in `[97, 122]`. -/
def isAsciiLower (c : Char) : Prop := 97 ≤ c.toNat ∧ c.toNat ≤ 122

instance (c : Char) : Decidable (isAsciiLower c) := by
  unfold isAsciiLower; infer_instance

/-- A string is upper-cased in the sense of C1: none of its characters is an
ASCII lower-case letter. -/
def noLowercase (s : String) : Prop := ∀ c ∈ s.data, ¬ isAsciiLower c

theorem Char.toNat_ofNat_of_lt {n : Nat} (h : n < 0xd800) :
    (Char.ofNat n).toNat = n := by
  have hv : n.isValidChar := Or.inl h
  simp [Char.ofNat, dif_pos hv, Char.ofNatAux, Char.toNat, UInt32.ofNat',
    UInt32.toNat, BitVec.toNat_ofNatLt]

theorem toUpper_not_lower (c : Char) : ¬ isAsciiLower (Char.toUpper c) := by
  unfold Char.toUpper
  by_cases h : c.toNat ≥ 97 ∧ c.toNat ≤ 122
  · rw [if_pos h]
    have : (Char.ofNat (c.toNat - 32)).toNat = c.toNat - 32 :=
      Char.toNat_ofNat_of_lt (by omega)
    unfold isAsciiLower
    omega
  · rw [if_neg h]
    unfold isAsciiLower
    omega

theorem jsToUpper_noLowercase (s : String) : noLowercase (jsToUpper s) := by
  intro c hc
  simp only [jsToUpper] at hc
  obtain ⟨d, _, rfl⟩ := List.mem_map.mp hc
  exact toUpper_not_lower d

/-- Embeds `interface NewsItem` from index.ts. -/
structure NewsItem where
  title : String
  url : String
  source : String
  publishedAt : String
  summary : String
  deriving Repr, DecidableEq

/-- One element of the news API response array, with just the fields
index.ts reads (`descr` models the `description` field). -/
structure RawNews where
  title : String
  url : String
  source : String
  published_at : String
  descr : String
  deriving Repr, DecidableEq

/-- The `try` block of `getLatestNews`: `data.slice(0, limit)` then a
field-by-field map, truncating `description` to 200 characters plus an
ellipsis. -/
def tryGetLatestNews (limit : Nat) (outcome : FetchOutcome (List RawNews)) :
    Except String (List NewsItem) :=
  match outcome with
  | .ok data => .ok ((data.take limit).map fun item =>
      { title := item.title
        url := item.url
        source := item.source
        publishedAt := item.published_at
        summary := jsSubstringTo item.descr 200 ++ "..." })
  | .httpError status body =>
      .error ("CoinGecko API error: " ++ toString status ++ " " ++ body)
  | .throwEx msg => .error msg

/-- The text interpolated after the topic in the fallback news summary. -/
def fallbackNewsSummaryTail : String :=
  " has reportedly formed a strategic partnership to develop new blockchain solutions. The collaboration aims to enhance scalability and security across their platforms."

/-- The `catch` block of `getLatestNews`: a loop pushing `limit` mock items.
`dateISO i` models `new Date(Date.now() - i * 86400000).toISOString()`. -/
def fallbackNews (topic : String) (limit : Nat) (dateISO : Nat → String) :
    List NewsItem :=
  (List.range limit).map fun i =>
    { title := topic ++ " Announces New Partnership with Major Tech Company"
      url := "https://crypto-news.io/" ++ jsToLower topic ++ "-partnership-" ++ toString i
      source := "CryptoNews"
      publishedAt := dateISO i
      summary := topic ++ fallbackNewsSummaryTail }

/-- Embeds `getLatestNews(topic, limit)`: try the upstream call, fall back to the
mock list on any failure. -/
def getLatestNews (topic : String) (limit : Nat) (dateISO : Nat → String)
    (outcome : FetchOutcome (List RawNews)) : List NewsItem :=
  match tryGetLatestNews limit outcome with
  | .ok r => r
  | .error _ => fallbackNews topic limit dateISO

theorem length_getLatestNews_le (topic : String) (limit : Nat)
    (dateISO : Nat → String) (outcome : FetchOutcome (List RawNews)) :
    (getLatestNews topic limit dateISO outcome).length ≤ limit := by
  cases outcome with
  | ok data =>
      simp [getLatestNews, tryGetLatestNews]
  | httpError status body =>
      simp [getLatestNews, tryGetLatestNews, fallbackNews]
  | throwEx msg =>
      simp [getLatestNews, tryGetLatestNews, fallbackNews]

/-- C7 counterexample: no fixed constant bounds the summary length across
all topics, because the fallback summary interpolates the topic itself: for
any proposed bound `C`, the topic made of `C + 1` letters `a` (with
`limit = 1` and a throwing upstream) produces a longer summary. -/
theorem C7_counterexample :
    ¬ ∃ C : ℕ, ∀ (topic : String) (limit : Nat) (dateISO : Nat → String)
      (o : FetchOutcome (List RawNews)),
      ∀ item ∈ getLatestNews topic limit dateISO o,
        item.summary.length ≤ C := by
  rintro ⟨C, h⟩
  have hmem :
      ({ title := String.mk (List.replicate (C + 1) 'a') ++ " Announces New Partnership with Major Tech Company"
         url := "https://crypto-news.io/" ++ jsToLower (String.mk (List.replicate (C + 1) 'a')) ++ "-partnership-" ++ toString 0
         source := "CryptoNews"
         publishedAt := "t0"
         summary := String.mk (List.replicate (C + 1) 'a') ++ fallbackNewsSummaryTail } : NewsItem)
      ∈ getLatestNews (String.mk (List.replicate (C + 1) 'a')) 1
          (fun _ => "t0") (.throwEx "down") := by
    simp [getLatestNews, tryGetLatestNews, fallbackNews, List.range_succ]
  have hb := h (String.mk (List.replicate (C + 1) 'a')) 1
    (fun _ => "t0") (.throwEx "down") _ hmem
  simp only [String.length_append] at hb
  have hlen : (String.mk (List.replicate (C + 1) 'a')).length = C + 1 := by
    simp [String.length]
  omega

/-- C7 (amended): on the success path every returned summary is truncated to
at most 203 characters (200 plus the 3-character ellipsis); on the fallback
path (non-success status or thrown error) the summary instead embeds the
topic and has length exactly `topic.length + 166`, so it is bounded in terms
of the topic but not by a topic-independent constant. -/
theorem C7_summary_lengths (topic : String) (limit : Nat)
    (dateISO : Nat → String) (data : List RawNews)
    (status : Nat) (body msg : String) :
    (∀ item ∈ getLatestNews topic limit dateISO (.ok data),
        item.summary.length ≤ 203) ∧
    (∀ item ∈ getLatestNews topic limit dateISO (.httpError status body),
        item.summary.length = topic.length + 166) ∧
    (∀ item ∈ getLatestNews topic limit dateISO (.throwEx msg),
        item.summary.length = topic.length + 166) := by
  refine ⟨?_, ?_, ?_⟩
  · intro item hitem
    simp only [getLatestNews, tryGetLatestNews, List.mem_map] at hitem
    obtain ⟨raw, _, rfl⟩ := hitem
    simp only [String.length_append]
    have h200 : (jsSubstringTo raw.descr 200).length ≤ 200 :=
      length_jsSubstringTo_le raw.descr 200
    have h3 : ("..." : String).length = 3 := rfl
    omega
  · intro item hitem
    simp only [getLatestNews, tryGetLatestNews, fallbackNews,
      List.mem_map] at hitem
    obtain ⟨i, _, rfl⟩ := hitem
    have ht : fallbackNewsSummaryTail.length = 166 := rfl
    simp only [String.length_append, ht]
  · intro item hitem
    simp only [getLatestNews, tryGetLatestNews, fallbackNews,
      List.mem_map] at hitem
    obtain ⟨i, _, rfl⟩ := hitem
    have ht : fallbackNewsSummaryTail.length = 166 := rfl
    simp only [String.length_append, ht]

/-- Witness for C7 (amended) at a concrete topic and outcomes. -/
theorem C7_witness :
    ∀ item ∈ getLatestNews "DeFi" 2 (fun _ => "t0") (.throwEx "down"),
      item.summary.length = "DeFi".length + 166 :=
  (C7_summary_lengths "DeFi" 2 (fun _ => "t0") [] 500 "err" "down").2.2

/-- C1: for every input identifier and every simulated upstream outcome
(success, non-success HTTP status, or thrown error), `getProjectInfo` and
`getPriceData` return a structurally complete record (witnessed by the total
return types `ProjectInfo` / `PriceData`) whose `symbol` field is
upper-cased, and every failure is converted into the fallback record rather
than escaping to the caller. -/
theorem C1_fetch_never_fails_symbol_uppercased
    (projectIdentifier now sym : String) (o : FetchOutcome CoinData)
    (o' : FetchOutcome (List MarketRecord)) (r₁ r₂ r₃ r₄ : ℚ) :
    noLowercase (getProjectInfo projectIdentifier now o).symbol ∧
    (getPriceData sym now o' r₁ r₂ r₃ r₄).symbol = jsToUpper sym ∧
    noLowercase (getPriceData sym now o' r₁ r₂ r₃ r₄).symbol ∧
    (∀ status body, getProjectInfo projectIdentifier now (.httpError status body)
        = fallbackProjectInfo projectIdentifier now) ∧
    (∀ msg, getProjectInfo projectIdentifier now (.throwEx msg)
        = fallbackProjectInfo projectIdentifier now) ∧
    (∀ status body, getPriceData sym now (.httpError status body) r₁ r₂ r₃ r₄
        = fallbackPriceData sym now r₁ r₂ r₃ r₄) ∧
    (∀ msg, getPriceData sym now (.throwEx msg) r₁ r₂ r₃ r₄
        = fallbackPriceData sym now r₁ r₂ r₃ r₄) := by
  refine ⟨?_, ?_, ?_, fun _ _ => rfl, fun _ => rfl, fun _ _ => rfl, fun _ => rfl⟩
  · cases o with
    | ok data =>
        simpa [getProjectInfo, tryGetProjectInfo] using
          jsToUpper_noLowercase data.symbol
    | httpError status body =>
        simpa [getProjectInfo, tryGetProjectInfo, fallbackProjectInfo] using
          jsToUpper_noLowercase (jsSubstringTo projectIdentifier 3)
    | throwEx msg =>
        simpa [getProjectInfo, tryGetProjectInfo, fallbackProjectInfo] using
          jsToUpper_noLowercase (jsSubstringTo projectIdentifier 3)
  · cases o' with
    | ok data => cases data <;> rfl
    | httpError status body => rfl
    | throwEx msg => rfl
  · cases o' with
    | ok data =>
        cases data with
        | nil =>
            simpa [getPriceData, tryGetPriceData, fallbackPriceData] using
              jsToUpper_noLowercase sym
        | cons d rest =>
            simpa [getPriceData, tryGetPriceData] using
              jsToUpper_noLowercase sym
    | httpError status body =>
        simpa [getPriceData, tryGetPriceData, fallbackPriceData] using
          jsToUpper_noLowercase sym
    | throwEx msg =>
        simpa [getPriceData, tryGetPriceData, fallbackPriceData] using
          jsToUpper_noLowercase sym

/-- Witness for C1 at a concrete identifier and outcome. -/
theorem C1_witness :
    noLowercase (getProjectInfo "Ethereum" "t0" (.throwEx "down")).symbol ∧
    (getPriceData "eth" "t0" (.httpError 429 "rate limited") 0 0 0 0).symbol
      = jsToUpper "eth" :=
  ⟨(C1_fetch_never_fails_symbol_uppercased "Ethereum" "t0" "eth"
      (.throwEx "down") (.httpError 429 "rate limited") 0 0 0 0).1,
   (C1_fetch_never_fails_symbol_uppercased "Ethereum" "t0" "eth"
      (.throwEx "down") (.httpError 429 "rate limited") 0 0 0 0).2.1⟩

/-- C8 counterexample: the fallback `websiteUrl` is not the lower-cased
identifier followed by a suffix — it carries the scheme prefix `https://` —
so at the concrete identifier `"abc"` no suffix makes the claimed equation
hold. -/
theorem C8_counterexample :
    ¬ ∃ suffix : String,
      (fallbackProjectInfo "abc" "t0").websiteUrl = jsToLower "abc" ++ suffix := by
  rintro ⟨suffix, h⟩
  have hd := congrArg String.data h
  simp [fallbackProjectInfo, jsToLower, String.data_append] at hd

/-- C8 (amended): when the upstream call fails, the fallback `PriceData`
has `price ∈ [1000, 2000)` and `change24h ∈ [-5, 5)` (for `Math.random()`
draws in `[0, 1)`), and the fallback `ProjectInfo` has `symbol` equal to the
first three characters of the identifier upper-cased and `websiteUrl` equal
to the fixed scheme prefix `https://`, then the lower-cased identifier, then
the fixed domain suffix `.io`. -/
theorem C8_fallback_ranges_and_defaults
    (projectIdentifier sym now : String) (r₁ r₂ r₃ r₄ : ℚ)
    (h₁0 : 0 ≤ r₁) (h₁1 : r₁ < 1) (h₂0 : 0 ≤ r₂) (h₂1 : r₂ < 1) :
    (1000 ≤ (fallbackPriceData sym now r₁ r₂ r₃ r₄).price ∧
      (fallbackPriceData sym now r₁ r₂ r₃ r₄).price < 2000) ∧
    (-5 ≤ (fallbackPriceData sym now r₁ r₂ r₃ r₄).change24h ∧
      (fallbackPriceData sym now r₁ r₂ r₃ r₄).change24h < 5) ∧
    (fallbackProjectInfo projectIdentifier now).symbol
      = jsToUpper (jsSubstringTo projectIdentifier 3) ∧
    (fallbackProjectInfo projectIdentifier now).websiteUrl
      = "https://" ++ jsToLower projectIdentifier ++ ".io" := by
  refine ⟨⟨?_, ?_⟩, ⟨?_, ?_⟩, rfl, rfl⟩ <;>
    simp only [fallbackPriceData] <;> nlinarith

/-- Witness for C8 at concrete random draws. -/
theorem C8_witness :
    1000 ≤ (fallbackPriceData "eth" "t0" (1/2) (1/4) 0 0).price ∧
    (fallbackPriceData "eth" "t0" (1/2) (1/4) 0 0).price < 2000 :=
  ⟨(C8_fallback_ranges_and_defaults "abc" "eth" "t0" (1/2) (1/4) 0 0
      (by norm_num) (by norm_num) (by norm_num) (by norm_num)).1.1,
   (C8_fallback_ranges_and_defaults "abc" "eth" "t0" (1/2) (1/4) 0 0
      (by norm_num) (by norm_num) (by norm_num) (by norm_num)).1.2⟩

/-- The parsed body of a successful GitHub repo-metadata response, with
just the fields index.ts reads. -/
structure RepoData where
  stargazers_count : Nat
  forks_count : Nat
  open_issues_count : Nat
  updated_at : String
  deriving Repr, DecidableEq

/-- One element of the GitHub contributors response array, with just the
fields index.ts reads. -/
structure RawContributor where
  login : String
  contributions : Nat
  deriving Repr, DecidableEq

/-- A `topContributors` entry of the object `getGitHubActivity` returns. -/
structure GHContributor where
  username : String
  contributions : Nat
  deriving Repr, DecidableEq

/-- The object `getGitHubActivity` returns.  The commit-activity entries are
opaque to index.ts (it only slices the array), modelled as integers. -/
structure GitHubActivity where
  stars : Nat
  forks : Nat
  openIssues : Nat
  lastUpdated : String
  weeklyCommitActivity : List Int
  topContributors : List GHContributor
  deriving Repr, DecidableEq

/-- Model of JS `arr.slice(-n)`: the last `min n arr.length` elements. -/
def jsSliceLast (n : Nat) (l : List α) : List α := l.drop (l.length - n)

theorem length_jsSliceLast (n : Nat) (l : List α) :
    (jsSliceLast n l).length = min n l.length := by
  simp [jsSliceLast]
  omega

/-- The `try` block of `getGitHubActivity`: three sequential fetches (repo
metadata, commit activity, contributors); a failure of any one throws before
the later ones run.  `weeklyCommitActivity` is `commitsData.slice(-8)` and
`topContributors` maps the whole contributors array. -/
def tryGetGitHubActivity (repoOutcome : FetchOutcome RepoData)
    (commitsOutcome : FetchOutcome (List Int))
    (contributorsOutcome : FetchOutcome (List RawContributor)) :
    Except String GitHubActivity :=
  match repoOutcome with
  | .httpError status body =>
      .error ("GitHub API error: " ++ toString status ++ " " ++ body)
  | .throwEx msg => .error msg
  | .ok repoData =>
    match commitsOutcome with
    | .httpError status body =>
        .error ("GitHub API error: " ++ toString status ++ " " ++ body)
    | .throwEx msg => .error msg
    | .ok commitsData =>
      match contributorsOutcome with
      | .httpError status body =>
          .error ("GitHub API error: " ++ toString status ++ " " ++ body)
      | .throwEx msg => .error msg
      | .ok contributorsData => .ok
          { stars := repoData.stargazers_count
            forks := repoData.forks_count
            openIssues := repoData.open_issues_count
            lastUpdated := repoData.updated_at
            weeklyCommitActivity := jsSliceLast 8 commitsData
            topContributors := contributorsData.map fun c =>
              { username := c.login, contributions := c.contributions } }

/-- The `catch` block of `getGitHubActivity`: the mock fallback record.
`randStars`/`randForks`/`randIssues` model the `Math.floor(Math.random()*k)`
draws, `randCommit i` the `i`-th random weekly commit count. -/
def fallbackGitHubActivity (now : String)
    (randStars randForks randIssues : Nat) (randCommit : Nat → Int) :
    GitHubActivity :=
  { stars := 1000 + randStars
    forks := 100 + randForks
    openIssues := 50 + randIssues
    lastUpdated := now
    weeklyCommitActivity := (List.range 8).map randCommit
    topContributors := (List.range 5).map fun i =>
      { username := "developer" ++ toString i, contributions := 100 - i * 15 } }

/-- Embeds `getGitHubActivity(repoOwner, repoName)`: try the three upstream calls,
fall back to the mock record on any failure.  (The owner/name arguments only
form the request URLs and do not influence the returned record.) -/
def getGitHubActivity (repoOutcome : FetchOutcome RepoData)
    (commitsOutcome : FetchOutcome (List Int))
    (contributorsOutcome : FetchOutcome (List RawContributor))
    (now : String) (randStars randForks randIssues : Nat)
    (randCommit : Nat → Int) : GitHubActivity :=
  match tryGetGitHubActivity repoOutcome commitsOutcome contributorsOutcome with
  | .ok r => r
  | .error _ => fallbackGitHubActivity now randStars randForks randIssues randCommit

/-- C6 counterexample: with a successful upstream that returns an empty
commit-activity array and six contributors, the returned record has zero
weekly entries (not 8) and six top contributors (not at most 5). -/
theorem C6_counterexample :
    (getGitHubActivity (.ok ⟨1200, 150, 60, "t1"⟩) (.ok [])
        (.ok (List.replicate 6 ⟨"u", 1⟩)) "t0" 0 0 0
        (fun _ => 0)).weeklyCommitActivity.length = 0 ∧
    (getGitHubActivity (.ok ⟨1200, 150, 60, "t1"⟩) (.ok [])
        (.ok (List.replicate 6 ⟨"u", 1⟩)) "t0" 0 0 0
        (fun _ => 0)).topContributors.length = 6 := by
  constructor <;> rfl

/-- C6 (amended): the fallback record always has exactly 8 weekly
commit-activity entries and exactly 5 top contributors (so ≤ 5); a record
built from a successful upstream response has `min 8` of the upstream
commit-week count — exactly 8 whenever the upstream supplies at least 8
weeks — and exactly as many top contributors as the upstream returned,
which is at most 5 whenever the provider honors the `per_page=5` request. -/
theorem C6_github_activity_lengths (repoData : RepoData)
    (commitsData : List Int) (contributorsData : List RawContributor)
    (now : String) (randStars randForks randIssues : Nat)
    (randCommit : Nat → Int) (msg : String)
    (hc : 8 ≤ commitsData.length) (hk : contributorsData.length ≤ 5) :
    ((getGitHubActivity (.ok repoData) (.ok commitsData) (.ok contributorsData)
        now randStars randForks randIssues randCommit).weeklyCommitActivity.length = 8 ∧
      (getGitHubActivity (.ok repoData) (.ok commitsData) (.ok contributorsData)
        now randStars randForks randIssues randCommit).topContributors.length ≤ 5) ∧
    ((fallbackGitHubActivity now randStars randForks randIssues
        randCommit).weeklyCommitActivity.length = 8 ∧
      (fallbackGitHubActivity now randStars randForks randIssues
        randCommit).topContributors.length = 5) ∧
    getGitHubActivity (.throwEx msg) (.ok commitsData) (.ok contributorsData)
        now randStars randForks randIssues randCommit
      = fallbackGitHubActivity now randStars randForks randIssues randCommit := by
  refine ⟨⟨?_, ?_⟩, ⟨?_, ?_⟩, rfl⟩
  · show (jsSliceLast 8 commitsData).length = 8
    rw [length_jsSliceLast]
    omega
  · show (contributorsData.map _).length ≤ 5
    simpa using hk
  · simp [fallbackGitHubActivity]
  · simp [fallbackGitHubActivity]

/-- Witness for C6 (amended) at a concrete upstream response. -/
theorem C6_witness :
    (getGitHubActivity (.ok ⟨1200, 150, 60, "t1"⟩)
        (.ok [1, 2, 3, 4, 5, 6, 7, 8, 9]) (.ok [⟨"alice", 40⟩, ⟨"bob", 2⟩])
        "t0" 0 0 0 (fun _ => 0)).weeklyCommitActivity.length = 8 :=
  (C6_github_activity_lengths ⟨1200, 150, 60, "t1"⟩ [1, 2, 3, 4, 5, 6, 7, 8, 9]
    [⟨"alice", 40⟩, ⟨"bob", 2⟩] "t0" 0 0 0 (fun _ => 0) "down"
    (by decide) (by decide)).1.1

/-- One element of `data.items` in a GitHub repository-search response,
with just the fields index.ts reads (`descr` models `description`). -/
structure RawRepo where
  name : String
  full_name : String
  descr : String
  stargazers_count : Nat
  html_url : String
  deriving Repr, DecidableEq

/-- A `github` search result entry produced by `searchWeb3Info`. -/
structure RepoSearchResult where
  name : String
  fullName : String
  descr : String
  stars : Nat
  url : String
  deriving Repr, DecidableEq

/-- A mock `twitter` search result entry produced by `searchWeb3Info`. -/
structure Tweet where
  username : String
  tweet : String
  postedAt : String
  likes : Nat
  retweets : Nat
  deriving Repr, DecidableEq

/-- Model of the regex replacement of all whitespace with the empty string in the mock tweet text. -/
def jsStripWhitespace (s : String) : String :=
  String.mk (s.data.filter fun c => !c.isWhitespace)

/-- The value stored under one source key in the `results` object of
`searchWeb3Info`.  `errorRec msg` models an inline `{error: msg}` record
(used both for a failed GitHub fetch and for an unsupported source). -/
inductive SourceValue where
  | newsItems (items : List NewsItem)
  | githubRepos (repos : List RepoSearchResult)
  | tweets (ts : List Tweet)
  | errorRec (msg : String)
  deriving Repr, DecidableEq

/-- The `github` branch of `searchWeb3Info`: map the first five repository
search hits, or an inline `{error: ...}` record if the fetch threw. -/
def githubSearchBranch (ghOutcome : Except String (List RawRepo)) :
    SourceValue :=
  match ghOutcome with
  | .ok data => .githubRepos ((data.take 5).map fun repo =>
      { name := repo.name
        fullName := repo.full_name
        descr := repo.descr
        stars := repo.stargazers_count
        url := repo.html_url })
  | .error _ => .errorRec "Failed to fetch GitHub data"

/-- The `twitter` branch of `searchWeb3Info`: five mock tweets.  `tdate i`
models `new Date(Date.now() - i * 3600000).toISOString()`; `likes` and
`retweets` model the `Math.floor(Math.random() * k)` draws. -/
def mockTweets (query : String) (tdate : Nat → String)
    (likes retweets : Nat → Nat) : List Tweet :=
  (List.range 5).map fun i =>
    { username := "crypto_influencer_" ++ toString i
      tweet := "Interesting developments about " ++ query ++ " in the blockchain space. #blockchain #crypto #" ++ jsStripWhitespace query
      postedAt := tdate i
      likes := likes i
      retweets := retweets i }

/-- One iteration of the `sources.map` dispatch in `searchWeb3Info`: the
`switch (source.toLowerCase())` with its three recognized cases writing
`results.news` / `results.github` / `results.twitter`, and the `default`
case writing `results[source]`. -/
def searchBranch (query : String) (newsOutcome : FetchOutcome (List RawNews))
    (dateISO : Nat → String) (ghOutcome : Except String (List RawRepo))
    (tdate : Nat → String) (likes retweets : Nat → Nat) (source : String) :
    String × SourceValue :=
  if jsToLower source = "news" then
    ("news", .newsItems (getLatestNews query 5 dateISO newsOutcome))
  else if jsToLower source = "github" then
    ("github", githubSearchBranch ghOutcome)
  else if jsToLower source = "twitter" then
    ("twitter", .tweets (mockTweets query tdate likes retweets))
  else
    (source, .errorRec ("Unsupported source: " ++ source))

/-- The object `searchWeb3Info` returns; `results` models the JS `results`
object as a list of key/value writes in source order. -/
structure SearchResult where
  query : String
  sources : List String
  results : List (String × SourceValue)
  searchTime : String
  deriving Repr, DecidableEq

/-- Embeds `searchWeb3Info(query, sources)`: one branch per requested source, all
merged into the `results` mapping; the overall call always returns. -/
def searchWeb3Info (query : String) (sources : List String)
    (newsOutcome : FetchOutcome (List RawNews)) (dateISO : Nat → String)
    (ghOutcome : Except String (List RawRepo)) (tdate : Nat → String)
    (likes retweets : Nat → Nat) (now : String) : SearchResult :=
  { query := query
    sources := sources
    results := sources.map
      (searchBranch query newsOutcome dateISO ghOutcome tdate likes retweets)
    searchTime := now }

/-- C4: every requested source yields exactly one entry of `results` and the
overall call never fails (total return type): a source whose lower-casing is
not `news`/`github`/`twitter` yields `{error: "Unsupported source: s"}`
under the original name `s`, and a `news` source yields at most five items
under the key `news`. -/
theorem C4_search_every_source_answered (query : String)
    (sources : List String) (newsOutcome : FetchOutcome (List RawNews))
    (dateISO : Nat → String) (ghOutcome : Except String (List RawRepo))
    (tdate : Nat → String) (likes retweets : Nat → Nat) (now : String) :
    (searchWeb3Info query sources newsOutcome dateISO ghOutcome tdate
        likes retweets now).results.length = sources.length ∧
    ∀ s ∈ sources,
      (jsToLower s ∉ (["news", "github", "twitter"] : List String) →
        (s, SourceValue.errorRec ("Unsupported source: " ++ s)) ∈
          (searchWeb3Info query sources newsOutcome dateISO ghOutcome tdate
            likes retweets now).results) ∧
      (jsToLower s = "news" →
        ∃ items : List NewsItem, items.length ≤ 5 ∧
          ("news", SourceValue.newsItems items) ∈
            (searchWeb3Info query sources newsOutcome dateISO ghOutcome tdate
              likes retweets now).results) := by
  refine ⟨by simp [searchWeb3Info], fun s hs => ⟨fun hbad => ?_, fun hnews => ?_⟩⟩
  · have hb : searchBranch query newsOutcome dateISO ghOutcome tdate likes
        retweets s = (s, .errorRec ("Unsupported source: " ++ s)) := by
      simp only [List.mem_cons, List.not_mem_nil, or_false, not_or] at hbad
      simp [searchBranch, hbad.1, hbad.2.1, hbad.2.2]
    have : searchBranch query newsOutcome dateISO ghOutcome tdate likes
        retweets s ∈ (searchWeb3Info query sources newsOutcome dateISO
          ghOutcome tdate likes retweets now).results :=
      List.mem_map_of_mem _ hs
    rwa [hb] at this
  · refine ⟨getLatestNews query 5 dateISO newsOutcome,
      length_getLatestNews_le query 5 dateISO newsOutcome, ?_⟩
    have hb : searchBranch query newsOutcome dateISO ghOutcome tdate likes
        retweets s = ("news", .newsItems (getLatestNews query 5 dateISO
          newsOutcome)) := by
      simp [searchBranch, hnews]
    have : searchBranch query newsOutcome dateISO ghOutcome tdate likes
        retweets s ∈ (searchWeb3Info query sources newsOutcome dateISO
          ghOutcome tdate likes retweets now).results :=
      List.mem_map_of_mem _ hs
    rwa [hb] at this

/-- Witness for C4: `searchWeb3Info("eth", ["news", "bogus"])`. -/
theorem C4_witness :
    ("bogus", SourceValue.errorRec "Unsupported source: bogus") ∈
      (searchWeb3Info "eth" ["news", "bogus"] (.throwEx "down")
        (fun _ => "t0") (.error "down") (fun _ => "t0") (fun _ => 0)
        (fun _ => 0) "t0").results := by
  have h := (C4_search_every_source_answered "eth" ["news", "bogus"]
    (.throwEx "down") (fun _ => "t0") (.error "down") (fun _ => "t0")
    (fun _ => 0) (fun _ => 0) "t0").2 "bogus" (by decide) |>.1 (by decide)
  simpa using h

/-- C10: `searchWeb3Info` dispatches on `source.toLowerCase()`: any casing
of `news`, `github` or `twitter` reaches the corresponding branch and is
stored under the fixed lower-case key, while an unsupported source is stored
under the original-cased string given by the caller. -/
theorem C10_search_case_insensitive_dispatch (query : String)
    (sources : List String) (newsOutcome : FetchOutcome (List RawNews))
    (dateISO : Nat → String) (ghOutcome : Except String (List RawRepo))
    (tdate : Nat → String) (likes retweets : Nat → Nat) (now : String)
    (s : String) :
    (jsToLower s = "news" →
      searchBranch query newsOutcome dateISO ghOutcome tdate likes retweets s
        = ("news", .newsItems (getLatestNews query 5 dateISO newsOutcome))) ∧
    (jsToLower s = "github" →
      searchBranch query newsOutcome dateISO ghOutcome tdate likes retweets s
        = ("github", githubSearchBranch ghOutcome)) ∧
    (jsToLower s = "twitter" →
      searchBranch query newsOutcome dateISO ghOutcome tdate likes retweets s
        = ("twitter", .tweets (mockTweets query tdate likes retweets))) ∧
    (jsToLower s ∉ (["news", "github", "twitter"] : List String) →
      searchBranch query newsOutcome dateISO ghOutcome tdate likes retweets s
        = (s, .errorRec ("Unsupported source: " ++ s))) ∧
    (s ∈ sources →
      searchBranch query newsOutcome dateISO ghOutcome tdate likes retweets s
        ∈ (searchWeb3Info query sources newsOutcome dateISO ghOutcome tdate
            likes retweets now).results) := by
  refine ⟨fun h => by simp [searchBranch, h],
    fun h => by simp [searchBranch, h],
    fun h => by simp [searchBranch, h],
    fun h => ?_,
    fun hs => List.mem_map_of_mem _ hs⟩
  simp only [List.mem_cons, List.not_mem_nil, or_false, not_or] at h
  simp [searchBranch, h.1, h.2.1, h.2.2]

/-- Witness for C10: the mixed-case source `"News"` is dispatched to the
news branch and stored under the lower-case key `"news"`. -/
theorem C10_witness :
    searchBranch "eth" (.throwEx "down") (fun _ => "t0") (.error "down")
        (fun _ => "t0") (fun _ => 0) (fun _ => 0) "News"
      = ("news", .newsItems (getLatestNews "eth" 5 (fun _ => "t0")
          (.throwEx "down"))) :=
  (C10_search_case_insensitive_dispatch "eth" ["News"] (.throwEx "down")
    (fun _ => "t0") (.error "down") (fun _ => "t0") (fun _ => 0) (fun _ => 0)
    "t0" "News").1 (by decide)

/-- One `{symbol, amount}` input pair of `analyzePortfolio`. -/
structure PortfolioAsset where
  symbol : String
  amount : ℚ
  deriving Repr, DecidableEq

/-- One element of `portfolioData` inside `analyzePortfolio`. -/
structure PortfolioEntry where
  symbol : String
  amount : ℚ
  price : ℚ
  value : ℚ
  change24h : ℚ
  deriving Repr, DecidableEq

/-- One element of `allocations` (`{...asset, allocation}`). -/
structure AllocEntry where
  symbol : String
  amount : ℚ
  price : ℚ
  value : ℚ
  change24h : ℚ
  allocation : ℚ
  deriving Repr, DecidableEq

/-- The fixed `recommendations` array of `analyzePortfolio`. -/
def portfolioRecommendations : List String :=
  ["Consider rebalancing to maintain your target allocation",
   "Assets with highest gains might be candidates for profit taking",
   "Consider dollar-cost averaging for assets showing long-term potential"]

/-- The object `analyzePortfolio` returns. -/
structure PortfolioResult where
  assets : List AllocEntry
  totalValue : ℚ
  change24hValue : ℚ
  change24hPercent : ℚ
  recommendations : List String
  analysisDate : String
  deriving Repr, DecidableEq

/-- Embeds `analyzePortfolio(assets)`.  The per-asset `getPriceData` calls are
modelled by the price oracle `getPrice` (the fetcher always resolves to a
`PriceData`, real or fallback, so an oracle captures every outcome). -/
def analyzePortfolio (getPrice : String → PriceData)
    (assets : List PortfolioAsset) (now : String) : PortfolioResult :=
  let portfolioData : List PortfolioEntry := assets.map fun asset =>
    let priceData := getPrice asset.symbol
    { symbol := asset.symbol
      amount := asset.amount
      price := priceData.price
      value := asset.amount * priceData.price
      change24h := priceData.change24h }
  let totalValue := portfolioData.foldl (fun sum asset => sum + asset.value) 0
  let totalChange24h := portfolioData.foldl
    (fun sum asset => sum + asset.value * asset.change24h / 100) 0
  let percentChange24h := totalChange24h / totalValue * 100
  let allocations : List AllocEntry := portfolioData.map fun asset =>
    { symbol := asset.symbol
      amount := asset.amount
      price := asset.price
      value := asset.value
      change24h := asset.change24h
      allocation := asset.value / totalValue * 100 }
  { assets := allocations
    totalValue := totalValue
    change24hValue := totalChange24h
    change24hPercent := percentChange24h
    recommendations := portfolioRecommendations
    analysisDate := now }

theorem foldl_add_eq_sum (f : α → ℚ) (l : List α) :
    ∀ init : ℚ, l.foldl (fun s a => s + f a) init = init + (l.map f).sum := by
  induction l with
  | nil => intro init; simp
  | cons a t ih =>
      intro init
      simp only [List.foldl_cons, List.map_cons, List.sum_cons, ih]
      ring

/-- The stubbed price oracle of the portfolio scenario in the spec: every symbol
is priced at 50000 with zero 24h change. -/
def stubPrice50000 : String → PriceData := fun s =>
  { symbol := jsToUpper s
    price := 50000
    change24h := 0
    marketCap := 0
    volume24h := 0
    lastUpdated := "t0" }

/-- C3: `analyzePortfolio` computes per-asset `value = amount × price`,
`totalValue = Σ value`, `totalChange24h = Σ (value × change24h / 100)`,
`percentChange24h = totalChange24h / totalValue × 100` and per-asset
`allocation = value / totalValue × 100`; for the single asset
`{symbol: "BTC", amount: 1}` with a stubbed price of 50000 it returns
`totalValue = 50000` and `allocation = 100`.  (The parenthetical of the
claim about a non-finite percentage at `totalValue = 0` is a float artifact
that exact rational arithmetic cannot express.) -/
theorem C3_portfolio_formulas (getPrice : String → PriceData)
    (assets : List PortfolioAsset) (now : String) :
    (analyzePortfolio getPrice assets now).totalValue
      = (assets.map fun a => a.amount * (getPrice a.symbol).price).sum ∧
    (analyzePortfolio getPrice assets now).change24hValue
      = (assets.map fun a => a.amount * (getPrice a.symbol).price
          * (getPrice a.symbol).change24h / 100).sum ∧
    (analyzePortfolio getPrice assets now).change24hPercent
      = (analyzePortfolio getPrice assets now).change24hValue
          / (analyzePortfolio getPrice assets now).totalValue * 100 ∧
    (∀ e ∈ (analyzePortfolio getPrice assets now).assets,
      e.value = e.amount * e.price ∧
      e.allocation
        = e.value / (analyzePortfolio getPrice assets now).totalValue * 100) ∧
    (analyzePortfolio stubPrice50000 [⟨"BTC", 1⟩] "t0").totalValue = 50000 ∧
    (∀ e ∈ (analyzePortfolio stubPrice50000 [⟨"BTC", 1⟩] "t0").assets,
      e.allocation = 100) := by
  refine ⟨?_, ?_, rfl, ?_, ?_, ?_⟩
  · simp only [analyzePortfolio, foldl_add_eq_sum, List.map_map, zero_add]
    rfl
  · simp only [analyzePortfolio, foldl_add_eq_sum, List.map_map, zero_add]
    rfl
  · intro e he
    simp only [analyzePortfolio, List.map_map, List.mem_map] at he
    obtain ⟨a, _, rfl⟩ := he
    exact ⟨rfl, rfl⟩
  · show ([(1 : ℚ) * 50000].foldl (fun s v => s + v) 0 : ℚ) = 50000
    norm_num
  · intro e he
    simp only [analyzePortfolio, List.map_map, List.mem_map,
      stubPrice50000] at he
    obtain ⟨a, ha, rfl⟩ := he
    simp only [List.mem_singleton] at ha
    subst ha
    show (1 : ℚ) * 50000 / ([(1 : ℚ) * 50000].foldl (fun s v => s + v) 0) * 100
        = 100
    norm_num

/-- Witness for C3 at the concrete scenario given in the spec. -/
theorem C3_witness :
    (analyzePortfolio stubPrice50000 [⟨"BTC", 1⟩] "t0").totalValue = 50000 :=
  (C3_portfolio_formulas stubPrice50000 [⟨"BTC", 1⟩] "t0").2.2.2.2.1

theorem sum_map_div_mul (l : List ℚ) (t c : ℚ) :
    (l.map fun v => v / t * c).sum = l.sum / t * c := by
  induction l with
  | nil => simp
  | cons a s ih =>
      simp only [List.map_cons, List.sum_cons, ih]
      ring

/-- C9: whenever the computed `totalValue` is strictly positive, the
`allocation` fields returned by `analyzePortfolio` sum to exactly 100 over
exact rational arithmetic. -/
theorem C9_allocations_sum_100 (getPrice : String → PriceData)
    (assets : List PortfolioAsset) (now : String)
    (h : 0 < (analyzePortfolio getPrice assets now).totalValue) :
    ((analyzePortfolio getPrice assets now).assets.map
      (fun e => e.allocation)).sum = 100 := by
  have htv : (analyzePortfolio getPrice assets now).totalValue
      = (assets.map fun a => a.amount * (getPrice a.symbol).price).sum := by
    simp only [analyzePortfolio, foldl_add_eq_sum, List.map_map, zero_add]
    rfl
  have hmap : (analyzePortfolio getPrice assets now).assets.map
      (fun e => e.allocation)
      = (assets.map fun a => a.amount * (getPrice a.symbol).price).map
          (fun v => v / (analyzePortfolio getPrice assets now).totalValue
            * 100) := by
    simp only [analyzePortfolio, List.map_map]
    rfl
  rw [hmap, sum_map_div_mul, ← htv]
  field_simp

/-- Witness for C9 at a concrete two-asset portfolio. -/
theorem C9_witness :
    ((analyzePortfolio stubPrice50000 [⟨"BTC", 1⟩, ⟨"ETH", 3⟩] "t0").assets.map
      (fun e => e.allocation)).sum = 100 :=
  C9_allocations_sum_100 stubPrice50000 [⟨"BTC", 1⟩, ⟨"ETH", 3⟩] "t0" (by
    show (0 : ℚ) < [(1 : ℚ) * 50000, (3 : ℚ) * 50000].foldl (fun s v => s + v) 0
    norm_num)

/-- One element of `projectsData` inside `compareProjects`: the fields
assembled from `getProjectInfo`, `getPriceData` and `getOnChainData` for one
project name.  (The per-project fan-out is modelled by taking the already
fetched records as input; the fetchers are total, so any combination of
field values can occur.) -/
structure ProjComp where
  name : String
  symbol : String
  category : String
  price : ℚ
  change24h : ℚ
  marketCap : ℚ
  activeAddresses : ℚ
  transactions : ℚ
  totalValueLocked : ℚ
  deriving Repr, DecidableEq

/-- The six fixed metrics of the `metrics` array in `compareProjects`. -/
inductive Metric where
  | marketCap
  | price
  | change24h
  | activeAddresses
  | transactions
  | totalValueLocked
  deriving Repr, DecidableEq

/-- The JS property name of each metric (the `rankings` key). -/
def metricName : Metric → String
  | .marketCap => "marketCap"
  | .price => "price"
  | .change24h => "change24h"
  | .activeAddresses => "activeAddresses"
  | .transactions => "transactions"
  | .totalValueLocked => "totalValueLocked"

/-- Embeds the access `(project as any)[metric]` for the six fixed metrics. -/
def metricValue : Metric → ProjComp → ℚ
  | .marketCap, p => p.marketCap
  | .price, p => p.price
  | .change24h, p => p.change24h
  | .activeAddresses, p => p.activeAddresses
  | .transactions, p => p.transactions
  | .totalValueLocked, p => p.totalValueLocked

/-- The `metrics` array of `compareProjects`, in source order. -/
def metrics : List Metric :=
  [.marketCap, .price, .change24h, .activeAddresses, .transactions,
   .totalValueLocked]

/-- The ordering induced by the comparator `(a, b) => b[metric] - a[metric]`:
`a` may be placed before `b` iff the comparator is non-positive, i.e.
`b[metric] ≤ a[metric]` (descending). -/
def metricGE (m : Metric) (a b : ProjComp) : Prop :=
  metricValue m b ≤ metricValue m a

instance (m : Metric) : DecidableRel (metricGE m) := by
  unfold metricGE; infer_instance

instance (m : Metric) : IsTotal ProjComp (metricGE m) :=
  ⟨fun a b => le_total (metricValue m b) (metricValue m a)⟩

instance (m : Metric) : IsTrans ProjComp (metricGE m) :=
  ⟨fun _ _ _ hab hbc => le_trans hbc hab⟩

/-- Embeds `[...projectsData].sort((a, b) => b[metric] - a[metric])`: JS `sort` is
required to be stable, modelled by a stable insertion sort. -/
def sortByMetric (m : Metric) (data : List ProjComp) : List ProjComp :=
  List.insertionSort (metricGE m) data

/-- The per-metric rank table: `rankings[metric][project.name] = index + 1`
over the sorted order.  Duplicate names overwrite (JS object writes); reads
are modelled by `jsLookup` below. -/
def rankList (m : Metric) (data : List ProjComp) : List (String × Nat) :=
  (sortByMetric m data).enum.map fun p => (p.2.name, p.1 + 1)

/-- Reading a JS object built by a series of key writes: the last write to a
key wins. -/
def jsLookup (l : List (String × β)) (k : String) : Option β :=
  l.reverse.lookup k

/-- The object `compareProjects` returns. -/
structure ComparisonResult where
  projects : List ProjComp
  rankings : List (String × List (String × Nat))
  comparisonDate : String
  deriving Repr, DecidableEq

/-- Embeds `compareProjects(projectNames)`, from the point where the per-project
parallel fetches have settled into `projectsData`. -/
def compareProjects (projectsData : List ProjComp) (now : String) :
    ComparisonResult :=
  { projects := projectsData
    rankings := metrics.map fun m => (metricName m, rankList m projectsData)
    comparisonDate := now }

theorem filter_orderedInsert {α κ : Type} [DecidableEq κ] (key : α → κ)
    (r : α → α → Prop) [DecidableRel r] (hr : ∀ x y, key x = key y → r x y)
    (a : α) (q : κ) (l : List α) :
    (List.orderedInsert r a l).filter (fun x => key x = q)
      = if key a = q then a :: l.filter (fun x => key x = q)
        else l.filter (fun x => key x = q) := by
  induction l with
  | nil =>
      simp only [List.orderedInsert, List.filter]
      split <;> simp_all
  | cons b t ih =>
      by_cases hab : r a b
      · simp only [List.orderedInsert, if_pos hab, List.filter_cons]
        split <;> split <;> simp_all
      · have hkey : key a ≠ key b := fun h => hab (hr a b h)
        by_cases hbq : key b = q
        · have haq : ¬ key a = q := fun h => hkey (h.trans hbq.symm)
          simp [List.orderedInsert, if_neg hab, List.filter_cons, ih, hbq, haq]
        · by_cases haq : key a = q
          · simp [List.orderedInsert, if_neg hab, List.filter_cons, ih, hbq,
              haq]
          · simp [List.orderedInsert, if_neg hab, List.filter_cons, ih, hbq,
              haq]

theorem filter_insertionSort {α κ : Type} [DecidableEq κ] (key : α → κ)
    (r : α → α → Prop) [DecidableRel r] (hr : ∀ x y, key x = key y → r x y)
    (q : κ) (l : List α) :
    (List.insertionSort r l).filter (fun x => key x = q)
      = l.filter (fun x => key x = q) := by
  induction l with
  | nil => rfl
  | cons a t ih =>
      simp only [List.insertionSort,
        filter_orderedInsert key r hr a q (List.insertionSort r t), ih,
        List.filter_cons]
      split <;> simp_all

/-- C2: for every fetched `projectsData` and each of the six metrics, the
rank table under the name of the metric ranks the projects 1-based along a
descending, input-order-stable sort of that metric; in particular for two
distinctly named projects where the metric of A strictly exceeds that of B,
`rankings[metric][A] = 1` and `rankings[metric][B] = 2`. -/
theorem C2_compareProjects_rankings (data : List ProjComp) (now : String)
    (m : Metric) :
    jsLookup (compareProjects data now).rankings (metricName m)
      = some (rankList m data) ∧
    (sortByMetric m data).Perm data ∧
    List.Sorted (metricGE m) (sortByMetric m data) ∧
    (∀ q : ℚ, (sortByMetric m data).filter (fun p => metricValue m p = q)
        = data.filter (fun p => metricValue m p = q)) ∧
    (∀ A B : ProjComp, A.name ≠ B.name →
      metricValue m B < metricValue m A →
      jsLookup (rankList m [A, B]) A.name = some 1 ∧
      jsLookup (rankList m [A, B]) B.name = some 2) := by
  refine ⟨?_, List.perm_insertionSort (metricGE m) data,
    List.sorted_insertionSort (metricGE m) data,
    fun q => filter_insertionSort (fun p => metricValue m p) (metricGE m)
      (fun x y h => le_of_eq h.symm) q data,
    fun A B hname hlt => ?_⟩
  · cases m <;> rfl
  · have hsort : sortByMetric m [A, B] = [A, B] := by
      simp [sortByMetric, List.insertionSort, List.orderedInsert, metricGE,
        le_of_lt hlt]
    have hAB : (B.name == A.name) = false :=
      beq_eq_false_iff_ne.mpr (Ne.symm hname)
    have hBA : (A.name == B.name) = false := beq_eq_false_iff_ne.mpr hname
    simp [rankList, hsort, jsLookup, List.lookup, hAB, hBA]

/-- Witness for C2: two concrete projects with a strict market-cap gap. -/
theorem C2_witness :
    jsLookup (rankList .marketCap
      [⟨"A", "A", "c", 1, 1, 9, 1, 1, 1⟩, ⟨"B", "B", "c", 1, 1, 4, 1, 1, 1⟩])
      "A" = some 1 ∧
    jsLookup (rankList .marketCap
      [⟨"A", "A", "c", 1, 1, 9, 1, 1, 1⟩, ⟨"B", "B", "c", 1, 1, 4, 1, 1, 1⟩])
      "B" = some 2 :=
  (C2_compareProjects_rankings
    [⟨"A", "A", "c", 1, 1, 9, 1, 1, 1⟩, ⟨"B", "B", "c", 1, 1, 4, 1, 1, 1⟩]
    "t0" .marketCap).2.2.2.2
    ⟨"A", "A", "c", 1, 1, 9, 1, 1, 1⟩ ⟨"B", "B", "c", 1, 1, 4, 1, 1, 1⟩
    (by decide) (by norm_num [metricValue])

/-- One event of the fixed catalog in `getUpcomingEvents`.  Start and end
dates are `Date.now() + k·86400000` rendered to ISO strings; the comparator
parses them back to epoch milliseconds, so they are modelled by their
millisecond offsets from `Date.now()`. -/
structure EventInfo where
  name : String
  category : String
  startOffsetMs : Nat
  endOffsetMs : Nat
  location : String
  url : String
  descr : String
  deriving Repr, DecidableEq

/-- The second catalog entry, named because the test scenario of the spec
returns exactly this event. -/
def defiSecurityHackathon : EventInfo :=
  { name := "DeFi Security Hackathon"
    category := "hackathon"
    startOffsetMs := 15 * 86400000
    endOffsetMs := 17 * 86400000
    location := "Virtual"
    url := "https://defi-security-hackathon.com"
    descr := "48-hour hackathon focused on enhancing security in DeFi protocols." }

/-- The fixed `allEvents` catalog of `getUpcomingEvents`, in source order. -/
def allEvents : List EventInfo :=
  [{ name := "Ethereum Developer Conference"
     category := "conference"
     startOffsetMs := 30 * 86400000
     endOffsetMs := 33 * 86400000
     location := "Berlin, Germany"
     url := "https://ethdev-conference.io"
     descr := "Annual gathering of Ethereum developers and researchers discussing the latest advancements." },
   defiSecurityHackathon,
   { name := "Blockchain Summit Asia"
     category := "conference"
     startOffsetMs := 45 * 86400000
     endOffsetMs := 47 * 86400000
     location := "Singapore"
     url := "https://blockchain-summit-asia.com"
     descr := "The largest blockchain event in Asia featuring industry leaders and innovators." },
   { name := "NFT Creator Workshop"
     category := "workshop"
     startOffsetMs := 10 * 86400000
     endOffsetMs := 10 * 86400000
     location := "New York, USA"
     url := "https://nft-creator-workshop.com"
     descr := "Hands-on workshop for artists and creators entering the NFT space." },
   { name := "Web3 Governance Forum"
     category := "conference"
     startOffsetMs := 60 * 86400000
     endOffsetMs := 61 * 86400000
     location := "Zurich, Switzerland"
     url := "https://web3-governance.org"
     descr := "Forum dedicated to discussing governance models in Web3 projects." },
   { name := "ZK-Rollup Development Bootcamp"
     category := "bootcamp"
     startOffsetMs := 20 * 86400000
     endOffsetMs := 25 * 86400000
     location := "Virtual"
     url := "https://zk-rollup-bootcamp.dev"
     descr := "Five-day intensive bootcamp on developing with ZK-Rollup technology." },
   { name := "Crypto Regulation Roundtable"
     category := "roundtable"
     startOffsetMs := 40 * 86400000
     endOffsetMs := 40 * 86400000
     location := "Washington D.C., USA"
     url := "https://crypto-regulation-roundtable.org"
     descr := "Discussion between industry leaders and policy makers on blockchain regulation." }]

/-- The ordering induced by the comparator
`(a, b) => new Date(a.startDate).getTime() - new Date(b.startDate).getTime()`:
ascending by start time. -/
def eventLe (a b : EventInfo) : Prop := a.startOffsetMs ≤ b.startOffsetMs

instance : DecidableRel eventLe := by
  unfold eventLe; infer_instance

instance : IsTotal EventInfo eventLe :=
  ⟨fun a b => Nat.le_total a.startOffsetMs b.startOffsetMs⟩

instance : IsTrans EventInfo eventLe :=
  ⟨fun _ _ _ hab hbc => Nat.le_trans hab hbc⟩

/-- Embeds `getUpcomingEvents(category, limit)`: filter the catalog by category
(case-insensitive, `"all"` bypasses), sort ascending by start date (stable
JS sort, modelled by insertion sort) and truncate to `limit`. -/
def getUpcomingEvents (category : String) (limit : Nat) : List EventInfo :=
  let filteredEvents := if jsToLower category = "all" then allEvents
    else allEvents.filter fun event => jsToLower event.category = jsToLower category
  (List.insertionSort eventLe filteredEvents).take limit

/-- C5: `getUpcomingEvents` returns only catalog events whose category
matches the argument case-insensitively (`"all"` bypasses the filter),
sorted ascending by start date and truncated to `limit`; in particular
`getUpcomingEvents("hackathon", 5)` returns exactly the one hackathon of
the catalog. -/
theorem C5_events_filter_sort_limit (category : String) (limit : Nat) :
    (∀ e ∈ getUpcomingEvents category limit,
      e ∈ allEvents ∧
      (jsToLower category ≠ "all" →
        jsToLower e.category = jsToLower category)) ∧
    List.Sorted eventLe (getUpcomingEvents category limit) ∧
    (getUpcomingEvents category limit).length ≤ limit ∧
    getUpcomingEvents "hackathon" 5 = [defiSecurityHackathon] := by
  refine ⟨fun e he => ?_, ?_, ?_, by decide⟩
  · by_cases hall : jsToLower category = "all"
    · simp only [getUpcomingEvents, hall, if_pos] at he
      exact ⟨(List.mem_insertionSort eventLe).mp (List.mem_of_mem_take he),
        fun hcontra => absurd hall hcontra⟩
    · simp only [getUpcomingEvents, hall, if_neg, if_false] at he
      have hf := (List.mem_insertionSort eventLe).mp (List.mem_of_mem_take he)
      have := List.mem_filter.mp hf
      exact ⟨this.1, fun _ => by simpa using this.2⟩
  · exact List.Pairwise.sublist (List.take_sublist limit _)
      (List.sorted_insertionSort eventLe _)
  · exact List.length_take_le limit _

/-- Witness for C5 at a concrete category and limit. -/
theorem C5_witness :
    (getUpcomingEvents "CONFERENCE" 2).length ≤ 2 :=
  (C5_events_filter_sort_limit "CONFERENCE" 2).2.2.1

end MCPWeb3
